import Mathlib

/-!
Shallow embedding of the `imc` package (imaging mass cytometry analysis glue
code) for checking its natural-language specification.

The embedded code comes from:
* `imc/segmentation.py` (stack preparation and segmentation dispatch),
* `imc/data_models/project.py` (project initialization, cluster CSV
  round-trip, sample/ROI lookup, statistical-test loops, directory creation),
* `imc/scripts/segment_stacks.py` (the `segment` CLI).

External libraries (numpy, pandas, skimage, scipy, deepcell, stardist) are
modelled at their call boundary: deterministic array/series operations with
documented semantics are given executable definitions; opaque ML predictors
and `equalize_hist` are taken as function parameters ("oracles") so theorems
quantify over their behaviour.
-/

namespace IMC

/-- A Python/numpy float64 value: either a rational number or NaN.
(Infinities do not arise on the paths verified here.) -/
inductive PyF where
  | num (q : ℚ)
  | nan
  deriving DecidableEq, Repr

/-- Addition of float values; NaN propagates (IEEE-754 semantics). -/
def pyfAdd : PyF → PyF → PyF
  | .num a, .num b => .num (a + b)
  | _, _ => .nan

/-- Division of a float value by a natural count (used for means);
NaN propagates. -/
def pyfDivNat : PyF → Nat → PyF
  | .num a, n => if n = 0 then .nan else .num (a / n)
  | .nan, _ => .nan

/-- An n-dimensional numpy array: its shape and its flat (C-order) data
buffer, exactly numpy's own representation.  A 0-d array has shape `[]`
and a single entry. -/
structure NDArr where
  shape : List Nat
  data : List PyF
  deriving DecidableEq, Repr

namespace NDArr

/-- Number of entries of a shape (`np.prod(shape)`). -/
def prodL (s : List Nat) : Nat := s.foldr (· * ·) 1

/-- Decompose a flat C-order index into a multi-index for shape `s`. -/
def multiIdx : List Nat → Nat → List Nat
  | [], _ => []
  | _ :: rest, f => (f / prodL rest) :: multiIdx rest (f % prodL rest)

/-- Recompose a multi-index into a flat C-order index for shape `s`. -/
def flatIdx : List Nat → List Nat → Nat
  | _ :: rest, i :: is => i * prodL rest + flatIdx rest is
  | _, _ => 0

/-- Model of `skimage.transform.resize(a, s)`: an array of shape `s` whose
entries sample the input by coordinate scaling (nearest-neighbour; the
library interpolates, but every claim checked here depends only on the
output shape, which skimage guarantees equals `s`). -/
def resizeN (a : NDArr) (s : List Nat) : NDArr :=
  ⟨s, (List.range (prodL s)).map fun f =>
    let out := multiIdx s f
    let inIdx := (out.zip (s.zip a.shape)).map
      fun (p : Nat × Nat × Nat) => p.1 * p.2.2 / max p.2.1 1
    a.data.getD (flatIdx a.shape inIdx) .nan⟩

/-- Model of `ndarray.squeeze()`: drop all axes of length 1 (the flat
buffer is unchanged). -/
def squeeze (a : NDArr) : NDArr :=
  ⟨a.shape.filter (· ≠ 1), a.data⟩

/-- `a[np.newaxis, ...]`: a new leading axis of length 1. -/
def leadAxis (a : NDArr) : NDArr := ⟨1 :: a.shape, a.data⟩

/-- `a[..., np.newaxis]`: a new trailing axis of length 1. -/
def trailAxis (a : NDArr) : NDArr := ⟨a.shape ++ [1], a.data⟩

/-- The `i`-th slice along the leading axis. -/
def slice0 (a : NDArr) (i : Nat) : NDArr :=
  match a.shape with
  | [] => a
  | _ :: rest => ⟨rest, (a.data.drop (i * prodL rest)).take (prodL rest)⟩

/-- Iteration over the leading axis (`[x for x in a]`). -/
def axis0List (a : NDArr) : List NDArr :=
  match a.shape with
  | [] => []
  | c :: _ => (List.range c).map a.slice0

/-- Boolean-mask selection along the leading axis (`a[mask]` for a pandas
boolean series over a numpy array): keep the slices whose mask entry is
true. -/
def selectAxis0 (a : NDArr) (m : List Bool) : NDArr :=
  match a.shape with
  | [] => a
  | c :: rest =>
    let sel := ((List.range c).zip m).filterMap
      fun (p : Nat × Bool) => if p.2 then some p.1 else none
    ⟨sel.length :: rest, sel.flatMap fun i => (a.slice0 i).data⟩

/-- `np.moveaxis(a, 0, -1)` for a 3-d array `C×H×W → H×W×C`. -/
def moveaxis0last (a : NDArr) : NDArr :=
  match a.shape with
  | [c, h, w] =>
    ⟨[h, w, c], (List.range (h * w * c)).map fun f =>
      let i := f / (w * c); let j := f / c % w; let k := f % c
      a.data.getD (k * (h * w) + i * w + j) .nan⟩
  | _ => a

/-- `np.stack((x, y))`: a new leading axis of length 2. -/
def stack2 (x y : NDArr) : NDArr := ⟨2 :: x.shape, x.data ++ y.data⟩

end NDArr

/-- `np.asarray(xs).mean(0)`: the pixel-wise mean over the leading axis.
For an empty list numpy produces a 0-d NaN (with a runtime warning). -/
def meanAxis0 : List NDArr → NDArr
  | [] => ⟨[], [.nan]⟩
  | x :: rest =>
    let sum := rest.foldl
      (fun acc y => ⟨acc.shape, List.zipWith pyfAdd acc.data y.data⟩) x
    ⟨sum.shape, sum.data.map fun v => pyfDivNat v (rest.length + 1)⟩

/-- The shape contract of `skimage.transform.resize`: the output has
exactly the requested shape. -/
theorem NDArr.shape_resizeN (a : NDArr) (s : List Nat) :
    (NDArr.resizeN a s).shape = s := rfl

/-- A raised Python exception.  Distinct `assert` statements get distinct
constructors so theorems can name which assertion fired; `isAssertionError`
recovers the Python-level exception class. -/
inductive PyErr where
  | assertModelChoice
  | assertStardistNuclear
  | assertCompartmentChoice
  | assertMultiIndex
  | assertIndexNames
  | valueError
  | nameError
  | keyError
  | fileExistsError
  deriving DecidableEq, Repr

/-- The `assert`-originated errors are Python `AssertionError`s. -/
def PyErr.isAssertionError : PyErr → Bool
  | .assertModelChoice => true
  | .assertStardistNuclear => true
  | .assertCompartmentChoice => true
  | .assertMultiIndex => true
  | .assertIndexNames => true
  | _ => false

instance {ε α : Type} [DecidableEq ε] [DecidableEq α] :
    DecidableEq (Except ε α) := fun a b =>
  match a, b with
  | .ok x, .ok y =>
    if h : x = y then isTrue (by rw [h])
    else isFalse fun hc => h (by cases hc; rfl)
  | .error x, .error y =>
    if h : x = y then isTrue (by rw [h])
    else isFalse fun hc => h (by cases hc; rfl)
  | .ok _, .error _ => isFalse fun hc => Except.noConfusion hc
  | .error _, .ok _ => isFalse fun hc => Except.noConfusion hc

/-- Whether `pat` occurs at the start of `l`. -/
def startsWithL : List Char → List Char → Bool
  | [], _ => true
  | _ :: _, [] => false
  | a :: as, b :: bs => a = b && startsWithL as bs

/-- Whether `pat` occurs as a contiguous substring of `l`. -/
def hasSubL (pat : List Char) : List Char → Bool
  | [] => pat.isEmpty
  | c :: rest => startsWithL pat (c :: rest) || hasSubL pat rest

/-- `pandas.Series.str.contains(pat)` for a regex `pat` that is a plain
alternation-free literal: substring containment. -/
def strContainsSub (s pat : String) : Bool :=
  hasSubL pat.toList s.toList

/-- `channel_labels.str.contains("DNA|Ki67|SMA")`: the regex matches iff the
label contains one of the three literals. -/
def containsDNAKi67SMA (l : String) : Bool :=
  strContainsSub l "DNA" || strContainsSub l "Ki67" || strContainsSub l "SMA"

/-- The oracle functions standing for external libraries called by the
segmentation code: `skimage.exposure.equalize_hist` and the pretrained
stardist / deepcell predictors (each deepcell entry models
`app.predict(...)`, before the caller's `.squeeze()`). -/
structure Oracles where
  eqf : NDArr → NDArr
  stardistP : NDArr → NDArr
  dcNuclear : NDArr → NDArr
  dcCyto : NDArr → NDArr
  dcMultiplex : NDArr → NDArr

/-- Embedding of `imc.segmentation.prepare_stack`.

```python
assert compartment in ["nuclear", "cytoplasm", "both"]
if channel_exclude is not None:
    stack = stack[~channel_exclude]
    channel_labels = channel_labels[~channel_exclude.values]
nuclear_chs = channel_labels.str.contains("DNA")
nucl = np.asarray([eq(x) for x in stack[nuclear_chs]]).mean(0)
if compartment == "nuclear":
    return nucl
cyto_chs = ~channel_labels.str.contains("DNA|Ki67|SMA")
cyto = np.asarray([eq(x) for x in stack[~cyto_chs]]).mean(0)
if compartment == "cytoplasm":
    return cyto
return np.stack((nucl, cyto))
```
Note the source indexes with `~cyto_chs`, i.e. the channels whose label DOES
match `DNA|Ki67|SMA`, although `cyto_chs` was defined as the non-matching
ones; the embedding reproduces that double negation faithfully. -/
def prepare_stack (O : Oracles) (stack : NDArr) (channel_labels : List String)
    (compartment : String) (channel_exclude : Option (List Bool)) :
    Except PyErr NDArr :=
  if compartment ∈ ["nuclear", "cytoplasm", "both"] then
    let stack' := match channel_exclude with
      | some ex => stack.selectAxis0 (ex.map (!·))
      | none => stack
    let labels' := match channel_exclude with
      | some ex => ((channel_labels.zip (ex.map (!·))).filterMap
          fun (p : String × Bool) => if p.2 then some p.1 else none)
      | none => channel_labels
    let nuclear_chs := labels'.map (fun l => strContainsSub l "DNA")
    let nucl := meanAxis0
      (((stack'.selectAxis0 nuclear_chs).axis0List).map O.eqf)
    if compartment = "nuclear" then .ok nucl
    else
      let cyto_chs := labels'.map (fun l => !(containsDNAKi67SMA l))
      let cyto := meanAxis0
        (((stack'.selectAxis0 (cyto_chs.map (!·))).axis0List).map O.eqf)
      if compartment = "cytoplasm" then .ok cyto
      else .ok (nucl.stack2 cyto)
  else .error .assertCompartmentChoice

/-- Embedding of `stardist_segment_nuclei`: the pretrained model's instance
mask for the histogram-equalized image. -/
def stardist_segment_nuclei (O : Oracles) (image : NDArr) : NDArr :=
  O.stardistP (O.eqf image)

/-- Embedding of `deepcell_resize_to_predict_shape`.

```python
if len(image.shape) == 2:
    return resize(image, (256, 256))[np.newaxis, :, :, np.newaxis]
if len(image.shape) == 3:
    return resize(np.moveaxis(image, 0, -1), (256, 256, image.shape[0]))[np.newaxis, ...]
raise ValueError("Image with unknown shape.")
``` -/
def deepcell_resize_to_predict_shape (image : NDArr) : Except PyErr NDArr :=
  match image.shape with
  | [_, _] => .ok (image.resizeN [256, 256]).trailAxis.leadAxis
  | [c, _, _] => .ok ((image.moveaxis0last).resizeN [256, 256, c]).leadAxis
  | _ => .error .valueError

/-- The compartment default in `deepcell_segment`: when `None`, infer
`both` from a multi-channel trailing axis, else `nuclear`. -/
def dcComp (image : NDArr) : Option String → String
  | some c => c
  | none => if image.shape.getLastD 0 > 1 then "both" else "nuclear"

/-- The post-prediction step of `deepcell_segment`:
`if len(pred.shape) == 4: pred = resize(pred, image.shape[1:])`. -/
def dcPost (image pred : NDArr) : NDArr :=
  if pred.shape.length = 4 then pred.resizeN (image.shape.drop 1) else pred

/-- Embedding of `deepcell_segment`: choose the application by compartment
(defaulting from the trailing axis when `None`), predict, squeeze, and
resize 4-d predictions back to the input's trailing shape.  If the
compartment matches none of the three branches, `pred` is unbound and
Python raises `NameError` at `len(pred.shape)`. -/
def deepcell_segment (O : Oracles) (image : NDArr)
    (compartment : Option String) : Except PyErr NDArr :=
  if dcComp image compartment = "nuclear" then
    .ok (dcPost image (O.dcNuclear image).squeeze)
  else if dcComp image compartment = "cytoplasm" then
    .ok (dcPost image (O.dcCyto image).squeeze)
  else if dcComp image compartment = "both" then
    .ok (dcPost image (O.dcMultiplex image).squeeze)
  else .error .nameError

/-- Embedding of `segment_roi` (the returned mask; file saving and plotting
are I/O side effects outside the claims).

```python
assert model in ["deepcell", "stardist"]
image = prepare_stack(roi.stack, roi.channel_labels, compartment, roi.channel_exclude)
if model == "stardist":
    assert compartment == "nuclear"
    mask = stardist_segment_nuclei(image)
elif model == "deepcell":
    input_image = deepcell_resize_to_predict_shape(image)
    mask = deepcell_segment(input_image, compartment=compartment)
    if len(image.shape) == 2:
        mask = resize(mask, image.shape[:2])
    if len(image.shape) == 3:
        mask = resize(mask, image.shape[1:3] + (2,))
``` -/
def segment_roi (O : Oracles) (stack : NDArr) (channel_labels : List String)
    (channel_exclude : Option (List Bool)) (model compartment : String) :
    Except PyErr NDArr :=
  if model ∈ ["deepcell", "stardist"] then
    (prepare_stack O stack channel_labels compartment channel_exclude).bind
      fun image =>
        if model = "stardist" then
          if compartment = "nuclear" then .ok (stardist_segment_nuclei O image)
          else .error .assertStardistNuclear
        else
          (deepcell_resize_to_predict_shape image).bind fun input_image =>
            (deepcell_segment O input_image (some compartment)).bind fun mask0 =>
              let mask1 := if image.shape.length = 2
                then mask0.resizeN (image.shape.take 2) else mask0
              let mask2 := if image.shape.length = 3
                then mask1.resizeN ((image.shape.drop 1).take 2 ++ [2]) else mask1
              .ok mask2
  else .error .assertModelChoice


/-- The only exception `prepare_stack` itself raises is its compartment
assertion. -/
theorem prepare_stack_error_eq {O : Oracles} {stack : NDArr}
    {labels : List String} {compartment : String} {ex : Option (List Bool)}
    {e : PyErr} (h : prepare_stack O stack labels compartment ex = .error e) :
    e = .assertCompartmentChoice := by
  unfold prepare_stack at h
  repeat' split at h
  all_goals first
    | exact h.symm
    | exact (Except.error.inj h).symm
    | simp at h

/-- The only exception `deepcell_resize_to_predict_shape` raises is the
unknown-shape `ValueError`. -/
theorem deepcell_resize_error_eq {image : NDArr} {e : PyErr}
    (h : deepcell_resize_to_predict_shape image = .error e) :
    e = .valueError := by
  unfold deepcell_resize_to_predict_shape at h
  repeat' split at h
  all_goals first
    | exact h.symm
    | exact (Except.error.inj h).symm
    | simp at h

/-- The only exception `deepcell_segment` raises is the `NameError` for an
unrecognized compartment. -/
theorem deepcell_segment_error_eq {O : Oracles} {image : NDArr}
    {compartment : Option String} {e : PyErr}
    (h : deepcell_segment O image compartment = .error e) :
    e = .nameError := by
  unfold deepcell_segment at h
  repeat' split at h
  all_goals first
    | exact h.symm
    | exact (Except.error.inj h).symm
    | simp at h

/-- Concrete oracle pack where every external call is the identity
(`equalize_hist` and the predictors trivially shape-preserving). -/
def idOracles : Oracles := ⟨id, id, id, id, id⟩

/-- A concrete 1×1 channel image with value 1 (the `DNA1` channel). -/
def dnaChanImg : NDArr := ⟨[1, 1], [.num 1]⟩

/-- A concrete 1×1 channel image with value 7 (the `CD3` channel). -/
def cd3ChanImg : NDArr := ⟨[1, 1], [.num 7]⟩

/-- A concrete 2-channel 1×1 stack: channel 0 is `DNA1` (value 1),
channel 1 is `CD3` (value 7). -/
def stackTwoChan : NDArr := ⟨[2, 1, 1], [.num 1, .num 7]⟩

/-- **C3.** For every stack and channel-label series, `prepare_stack` is
claimed to return, for compartment `cytoplasm`, the mean of the
histogram-equalized channels whose label does NOT match `DNA|Ki67|SMA`.
The code instead indexes with `~cyto_chs`, the channels that DO match
(contradicting its own `# Get cytoplasmatic channels` comment and the
`cyto_chs` variable it just built): on the stack with labels
`["DNA1", "CD3"]` the `cytoplasm` result is the mean of the `DNA1`
channel, not of the cytoplasmic `CD3` channel, and the two differ. -/
theorem claim_C3_cytoplasm_selects_matching_channels :
    prepare_stack idOracles stackTwoChan ["DNA1", "CD3"] "cytoplasm" none
      = .ok (meanAxis0 [dnaChanImg]) ∧
    meanAxis0 [dnaChanImg] ≠ meanAxis0 [cd3ChanImg] := by
  constructor
  · rfl
  · simp [meanAxis0, dnaChanImg, cd3ChanImg, pyfDivNat]

/-- **C4.** Whenever `segment_roi` returns a mask and the prepared input
image has 2-d shape `h × w`, the mask has shape `h × w`; for `deepcell`
on a 3-d prepared image (compartment `both`) the mask has shape
`h × w × 2`.  The external predictors are only assumed shape-preserving
where the code relies on it (stardist; `equalize_hist`); the deepcell
branch forces the shape by resizing. -/
theorem claim_C4_segment_roi_mask_shape (O : Oracles) (stack : NDArr)
    (labels : List String) (ex : Option (List Bool))
    (model compartment : String) (image mask : NDArr)
    (hseg : segment_roi O stack labels ex model compartment = .ok mask)
    (hprep : prepare_stack O stack labels compartment ex = .ok image)
    (heq : ∀ a, (O.eqf a).shape = a.shape)
    (hsd : ∀ a, (O.stardistP a).shape = a.shape) :
    (∀ h w, image.shape = [h, w] → mask.shape = [h, w]) ∧
    (∀ c h w, model = "deepcell" → image.shape = [c, h, w] →
      mask.shape = [h, w, 2]) := by
  unfold segment_roi at hseg
  by_cases hm : model ∈ (["deepcell", "stardist"] : List String)
  case neg => rw [if_neg hm] at hseg; simp at hseg
  case pos =>
    rw [if_pos hm, hprep] at hseg
    simp only [Except.bind] at hseg
    by_cases hsdm : model = "stardist"
    · rw [if_pos hsdm] at hseg
      by_cases hcomp : compartment = "nuclear"
      · rw [if_pos hcomp] at hseg
        have hmask : mask = stardist_segment_nuclei O image :=
          (Except.ok.inj hseg).symm
        have hshape : mask.shape = image.shape := by
          rw [hmask]; unfold stardist_segment_nuclei; rw [hsd, heq]
        constructor
        · intro h w himg; rw [hshape, himg]
        · intro c h w hdc _
          exact absurd (hsdm ▸ hdc) (by decide)
      · rw [if_neg hcomp] at hseg
        simp at hseg
    · rw [if_neg hsdm] at hseg
      cases hdr : deepcell_resize_to_predict_shape image with
      | error e => rw [hdr] at hseg; simp [Except.bind] at hseg
      | ok input_image =>
        rw [hdr] at hseg
        simp only [Except.bind] at hseg
        cases hds : deepcell_segment O input_image (some compartment) with
        | error e => rw [hds] at hseg; simp [Except.bind] at hseg
        | ok mask0 =>
          rw [hds] at hseg
          simp only [Except.bind] at hseg
          have hmask := (Except.ok.inj hseg).symm
          constructor
          · intro h w himg
            rw [hmask, himg]
            rfl
          · intro c h w _ himg
            rw [hmask, himg]
            rfl

/-- Witness for C4: on the concrete two-channel stack with the identity
oracles, the stardist/nuclear mask exists and has the prepared image's
2-d shape. -/
theorem claim_C4_segment_roi_mask_shape_witness :
    segment_roi idOracles stackTwoChan ["DNA1", "CD3"] none "stardist"
        "nuclear" = .ok (meanAxis0 [dnaChanImg]) ∧
    (meanAxis0 [dnaChanImg]).shape = [1, 1] :=
  ⟨rfl,
    (claim_C4_segment_roi_mask_shape idOracles stackTwoChan ["DNA1", "CD3"]
      none "stardist" "nuclear" (meanAxis0 [dnaChanImg])
      (meanAxis0 [dnaChanImg]) rfl rfl (fun _ => rfl) (fun _ => rfl)).1
      1 1 rfl⟩

/-- **C10.** `segment_roi` raises `AssertionError` before invoking any
model (the result is the same error for every oracle pack) whenever the
model argument is outside `{"deepcell", "stardist"}`, and whenever the
model is `stardist` with a compartment other than `nuclear`; under the
complementary preconditions its two `assert` branches never fire. -/
theorem claim_C10_segment_roi_assertions (O : Oracles) (stack : NDArr)
    (labels : List String) (ex : Option (List Bool))
    (model compartment : String) :
    (model ∉ (["deepcell", "stardist"] : List String) →
      segment_roi O stack labels ex model compartment
        = .error .assertModelChoice) ∧
    (model = "stardist" → compartment ≠ "nuclear" →
      ∃ e, segment_roi O stack labels ex model compartment = .error e ∧
        e.isAssertionError = true) ∧
    (model ∈ (["deepcell", "stardist"] : List String) →
      (model = "stardist" → compartment = "nuclear") →
      segment_roi O stack labels ex model compartment
          ≠ .error .assertModelChoice ∧
      segment_roi O stack labels ex model compartment
          ≠ .error .assertStardistNuclear) := by
  refine ⟨fun hm => ?_, fun hsdm hcomp => ?_, fun hm hnuc => ?_⟩
  · unfold segment_roi
    rw [if_neg hm]
  · unfold segment_roi
    rw [if_pos (by rw [hsdm]; decide)]
    cases hp : prepare_stack O stack labels compartment ex with
    | error e =>
      simp only [Except.bind]
      exact ⟨e, rfl, by rw [prepare_stack_error_eq hp]; rfl⟩
    | ok image =>
      simp only [Except.bind]
      rw [if_pos hsdm, if_neg hcomp]
      exact ⟨.assertStardistNuclear, rfl, rfl⟩
  · unfold segment_roi
    rw [if_pos hm]
    cases hp : prepare_stack O stack labels compartment ex with
    | error e =>
      simp only [Except.bind]
      rw [prepare_stack_error_eq hp]
      exact ⟨by simp, by simp⟩
    | ok image =>
      simp only [Except.bind]
      by_cases hsdm : model = "stardist"
      · rw [if_pos hsdm, if_pos (hnuc hsdm)]
        exact ⟨by simp, by simp⟩
      · rw [if_neg hsdm]
        cases hdr : deepcell_resize_to_predict_shape image with
        | error e =>
          simp only [Except.bind]
          rw [deepcell_resize_error_eq hdr]
          exact ⟨by simp, by simp⟩
        | ok input_image =>
          simp only [Except.bind]
          cases hds : deepcell_segment O input_image (some compartment) with
          | error e =>
            simp only [Except.bind]
            rw [deepcell_segment_error_eq hds]
            exact ⟨by simp, by simp⟩
          | ok mask0 =>
            simp only [Except.bind]
            exact ⟨by simp, by simp⟩

/-- Witness for C10: the model-choice assertion fires at a concrete bad
model argument. -/
theorem claim_C10_segment_roi_assertions_witness :
    segment_roi idOracles stackTwoChan ["DNA1", "CD3"] none "bogus"
        "nuclear" = .error .assertModelChoice :=
  (claim_C10_segment_roi_assertions idOracles stackTwoChan
    ["DNA1", "CD3"] none "bogus" "nuclear").1 (by decide)


/- ===================================================================
   Cluster CSV round-trip (`Project.cluster_cells` / `Project.set_clusters`)
   =================================================================== -/

/-- An in-memory pandas cell value as far as the cluster tables are
concerned: a Python `str`, a numpy `int64`, or missing (`NaN`).  Float,
boolean and other dtypes do not survive any of the hypotheses used below,
so they are not distinguished from strings by this model (see
`readColInfer`). -/
inductive PdVal where
  | s (v : String)
  | i (v : Int)
  | na
  deriving DecidableEq, Repr

/-- ASCII decimal digit test. -/
def isDigitC (c : Char) : Bool := 48 ≤ c.toNat && c.toNat ≤ 57

/-- The character of a decimal digit. -/
def toDigitChar (d : Nat) : Char := Char.ofNat (48 + d)

/-- Little-endian decimal digits of `n`, with explicit fuel so the kernel
can evaluate it (`fuel = n` suffices). -/
def natDigitsAux : Nat → Nat → List Nat
  | 0, _ => []
  | _ + 1, 0 => []
  | fuel + 1, n + 1 => ((n + 1) % 10) :: natDigitsAux fuel ((n + 1) / 10)

/-- Python `str` of a non-negative integer. -/
def natStr (n : Nat) : String :=
  if n = 0 then "0"
  else String.mk ((natDigitsAux n n).reverse.map toDigitChar)

/-- Python `str` of an integer (what `DataFrame.to_csv` writes for an
int64 cell). -/
def intStr : Int → String
  | .ofNat n => natStr n
  | .negSucc m => String.mk (Char.ofNat 45 :: (natStr (m + 1)).toList)

/-- The cell text `DataFrame.to_csv` emits: strings verbatim (CSV quoting
and unquoting compose to the identity and are not modelled), integers in
decimal, `NaN` as the empty field. -/
def renderVal : PdVal → String
  | .s v => v
  | .i n => intStr n
  | .na => ""

/-- The strings `pandas.read_csv` treats as missing by default, plus the
empty field (which `to_csv` writes for `NaN`). -/
def pdNaStrings : List String :=
  ["", "#N/A", "#N/A N/A", "#NA", "-1.#IND", "-1.#INF", "-1.#QNAN",
   "-NaN", "-nan", "1.#IND", "1.#QNAN", "<NA>", "N/A", "NA", "NULL",
   "NaN", "None", "n/a", "nan", "null"]

/-- Value of an unsigned digit string. -/
def digitsVal (l : List Char) : Nat :=
  l.foldl (fun acc c => acc * 10 + (c.toNat - 48)) 0

/-- Whether the cell text is an integer literal (optional sign, then
digits), which `read_csv` would parse into an int64 column. -/
def isIntLit (t : String) : Bool :=
  !t.toList.isEmpty &&
    (if t.toList.headD 'x' = Char.ofNat 45
        || t.toList.headD 'x' = Char.ofNat 43 then
      !t.toList.tail.isEmpty && t.toList.tail.all isDigitC
    else t.toList.all isDigitC)

/-- The integer value of an integer-literal cell text. -/
def parseIntLit (t : String) : Int :=
  if t.toList.headD 'x' = Char.ofNat 45 then -(digitsVal t.toList.tail : Int)
  else if t.toList.headD 'x' = Char.ofNat 43 then (digitsVal t.toList.tail : Int)
  else (digitsVal t.toList : Int)

/-- Whether the digits-dot-digits body is a float mantissa. -/
def isFloatBody (l : List Char) : Bool :=
  let before := l.takeWhile isDigitC
  match l.drop before.length with
  | [] => !before.isEmpty
  | c :: frac =>
    c = Char.ofNat 46 && frac.all isDigitC &&
      (!before.isEmpty || !frac.isEmpty)

/-- Whether the cell text is a float literal (optional sign, mantissa,
optional exponent), which `read_csv` would parse into a float64 column. -/
def isFloatLit (t : String) : Bool :=
  let l := t.toList
  let body := match l with
    | c :: rest => if c = Char.ofNat 45 || c = Char.ofNat 43 then rest else l
    | [] => []
  let mantissa := body.takeWhile fun c => c ≠ 'e' && c ≠ 'E'
  isFloatBody mantissa &&
    (match body.drop mantissa.length with
     | [] => true
     | _ :: ex =>
       let ex2 := match ex with
         | c :: r => if c = Char.ofNat 45 || c = Char.ofNat 43 then r else ex
         | [] => []
       !ex2.isEmpty && ex2.all isDigitC)

/-- Whether the cell text is a boolean literal, which `read_csv` would
parse into a bool column. -/
def isBoolLit (t : String) : Bool :=
  t ∈ (["True", "False", "TRUE", "FALSE", "true", "false"] : List String)

/-- Whether `read_csv` type inference would turn this cell text into
something other than the same Python string: integer, float or boolean
literals, and the NA strings. -/
def pdInferLike (t : String) : Bool :=
  isIntLit t || isFloatLit t || isBoolLit t || t ∈ pdNaStrings

/-- Reading one cell of a column passed with `dtype=str`: NA strings
become `NaN`, everything else stays the raw string. -/
def readCellStr (t : String) : PdVal :=
  if t ∈ pdNaStrings then .na else .s t

/-- A `dtype=str` column as read by `pandas.read_csv`. -/
def readColStr (ts : List String) : List PdVal := ts.map readCellStr

/-- A column read by `pandas.read_csv` without an explicit dtype: if every
cell is an integer literal the column becomes int64, otherwise it stays an
object column of strings (with NA strings as `NaN`).  This restricts
pandas' inference to the two dtypes that can arise under the hypotheses
used below: columns that are float-like, boolean-like, or integers mixed
with NAs are excluded by those hypotheses. -/
def readColInfer (ts : List String) : List PdVal :=
  if ts.all isIntLit then ts.map fun t => .i (parseIntLit t)
  else ts.map readCellStr

/-- Zip four columns back into rows (`set_index` + column selection
recombines the columns positionally). -/
def zip4 {a b c d : Type} :
    List a → List b → List c → List d → List (a × b × c × d)
  | x :: xs, y :: ys, z :: zs, w :: ws => (x, y, z, w) :: zip4 xs ys zs ws
  | _, _, _, _ => []

/-- Embedding of the CSV write in `Project.cluster_cells`:
`clusters.reset_index().to_csv(fn, index=False)` — one CSV record per
(sample, roi, obj_id, cluster) row, each cell rendered as text. -/
def cluster_cells_to_csv (rows : List (PdVal × PdVal × PdVal × PdVal)) :
    List (String × String × String × String) :=
  rows.map fun r =>
    (renderVal r.1, renderVal r.2.1, renderVal r.2.2.1, renderVal r.2.2.2)

/-- Embedding of the CSV read in `Project.set_clusters`:
`pd.read_csv(fn, dtype={"sample": str, "roi": str}).set_index(["sample",
"roi", "obj_id"])["cluster"]` — `sample` and `roi` are forced to `str`,
`obj_id` and `cluster` go through dtype inference. -/
def set_clusters_read_csv (cells : List (String × String × String × String)) :
    List (PdVal × PdVal × PdVal × PdVal) :=
  zip4 (readColStr (cells.map fun c => c.1))
    (readColStr (cells.map fun c => c.2.1))
    (readColInfer (cells.map fun c => c.2.2.1))
    (readColInfer (cells.map fun c => c.2.2.2))


/-- Little-endian digit-list value. -/
def ofDigitsLE : List Nat → Nat
  | [] => 0
  | d :: ds => d + 10 * ofDigitsLE ds

theorem natDigitsAux_lt (fuel : Nat) : ∀ n d, d ∈ natDigitsAux fuel n → d < 10 := by
  induction fuel with
  | zero => intro n d hd; simp [natDigitsAux] at hd
  | succ fuel ih =>
    intro n d hd
    cases n with
    | zero => simp [natDigitsAux] at hd
    | succ m =>
      simp only [natDigitsAux, List.mem_cons] at hd
      rcases hd with h | h
      · rw [h]; exact Nat.mod_lt _ (by norm_num)
      · exact ih _ _ h

theorem ofDigitsLE_natDigitsAux (fuel : Nat) :
    ∀ n, n ≤ fuel → ofDigitsLE (natDigitsAux fuel n) = n := by
  induction fuel with
  | zero => intro n hn; interval_cases n; rfl
  | succ fuel ih =>
    intro n hn
    cases n with
    | zero => rfl
    | succ m =>
      have hdiv : (m + 1) / 10 ≤ fuel := by
        have := Nat.div_lt_self (Nat.succ_pos m) (by norm_num : 1 < 10)
        omega
      simp only [natDigitsAux, ofDigitsLE, ih _ hdiv]
      exact Nat.mod_add_div _ _

theorem toDigitChar_toNat {d : Nat} (hd : d < 10) :
    (toDigitChar d).toNat = 48 + d := by
  interval_cases d <;> rfl

theorem foldl_digitsVal (l : List Nat) (hl : ∀ d ∈ l, d < 10) :
    ∀ a, List.foldl (fun acc c => acc * 10 + (c.toNat - 48)) a
      (l.reverse.map toDigitChar) = a * 10 ^ l.length + ofDigitsLE l := by
  induction l with
  | nil => intro a; simp [ofDigitsLE]
  | cons d ds ih =>
    intro a
    rw [List.reverse_cons, List.map_append, List.foldl_append]
    rw [ih (fun x hx => hl x (List.mem_cons_of_mem _ hx)) a]
    have hd : d < 10 := hl d (List.mem_cons_self _ _)
    simp only [List.map_cons, List.map_nil, List.foldl_cons, List.foldl_nil,
      toDigitChar_toNat hd, ofDigitsLE, List.length_cons]
    have h48 : 48 + d - 48 = d := by omega
    rw [h48]
    ring

theorem natStr_toList_eq (m : Nat) :
    (natStr (m + 1)).toList
      = (natDigitsAux (m + 1) (m + 1)).reverse.map toDigitChar := by
  simp [natStr]

theorem natStr_toList_ne_nil (n : Nat) : (natStr n).toList ≠ [] := by
  cases n with
  | zero => simp [natStr]
  | succ m =>
    rw [natStr_toList_eq]
    simp [natDigitsAux]

theorem natStr_all_digits (n : Nat) :
    ∀ c ∈ (natStr n).toList, isDigitC c = true := by
  cases n with
  | zero => intro c hc; simp [natStr] at hc; rw [hc]; rfl
  | succ m =>
    intro c hc
    rw [natStr_toList_eq] at hc
    obtain ⟨d, hd, rfl⟩ := List.mem_map.mp hc
    have hd10 : d < 10 :=
      natDigitsAux_lt _ _ _ (List.mem_reverse.mp hd)
    simp [isDigitC, toDigitChar_toNat hd10]
    omega

theorem digitsVal_natStr (n : Nat) : digitsVal (natStr n).toList = n := by
  cases n with
  | zero => rfl
  | succ m =>
    rw [natStr_toList_eq]
    unfold digitsVal
    rw [foldl_digitsVal _ (fun d hd => natDigitsAux_lt _ _ _ hd)]
    rw [ofDigitsLE_natDigitsAux _ _ (le_refl _)]
    ring

theorem natStr_head_not_sign (n : Nat) {c : Char} {rest : List Char}
    (h : (natStr n).toList = c :: rest) :
    c ≠ Char.ofNat 45 ∧ c ≠ Char.ofNat 43 := by
  have hc : isDigitC c = true :=
    natStr_all_digits n c (h ▸ List.mem_cons_self c rest)
  simp only [isDigitC, Bool.and_eq_true, decide_eq_true_eq] at hc
  constructor
  · intro he
    have : c.toNat = 45 := by rw [he]; rfl
    omega
  · intro he
    have : c.toNat = 43 := by rw [he]; rfl
    omega

theorem isIntLit_natStr (n : Nat) : isIntLit (natStr n) = true := by
  unfold isIntLit
  cases hlist : (natStr n).toList with
  | nil => exact absurd hlist (natStr_toList_ne_nil n)
  | cons c rest =>
    obtain ⟨h45, h43⟩ := natStr_head_not_sign n hlist
    have hall := natStr_all_digits n
    rw [hlist] at hall
    simp only [List.headD_cons, List.isEmpty_cons, Bool.not_false,
      Bool.true_and]
    rw [if_neg (by simp [h45, h43])]
    rw [List.all_eq_true]
    intro x hx
    exact hall x hx

theorem parseIntLit_natStr (n : Nat) : parseIntLit (natStr n) = (n : Int) := by
  unfold parseIntLit
  cases hlist : (natStr n).toList with
  | nil => exact absurd hlist (natStr_toList_ne_nil n)
  | cons c rest =>
    obtain ⟨h45, h43⟩ := natStr_head_not_sign n hlist
    simp only [List.headD_cons]
    rw [if_neg (by simp [h45]), if_neg (by simp [h43])]
    rw [← hlist, digitsVal_natStr]

theorem intStr_negSucc_toList (m : Nat) :
    (intStr (Int.negSucc m)).toList
      = Char.ofNat 45 :: (natStr (m + 1)).toList := rfl

theorem isIntLit_intStr (z : Int) : isIntLit (intStr z) = true := by
  cases z with
  | ofNat n => exact isIntLit_natStr n
  | negSucc m =>
    unfold isIntLit
    rw [intStr_negSucc_toList]
    simp only [List.headD_cons, List.isEmpty_cons, Bool.not_false,
      Bool.true_and, List.tail_cons]
    rw [if_pos (by simp)]
    rw [Bool.and_eq_true]
    constructor
    · simpa using natStr_toList_ne_nil (m + 1)
    · rw [List.all_eq_true]
      exact fun x hx => natStr_all_digits _ x hx

theorem parseIntLit_intStr (z : Int) : parseIntLit (intStr z) = z := by
  cases z with
  | ofNat n => exact parseIntLit_natStr n
  | negSucc m =>
    unfold parseIntLit
    rw [intStr_negSucc_toList]
    simp only [List.headD_cons, List.tail_cons]
    rw [if_pos (by simp), digitsVal_natStr]
    simp [Int.negSucc_eq]


theorem zip4_proj {a b c d : Type} (rows : List (a × b × c × d)) :
    zip4 (rows.map fun r => r.1) (rows.map fun r => r.2.1)
      (rows.map fun r => r.2.2.1) (rows.map fun r => r.2.2.2) = rows := by
  induction rows with
  | nil => rfl
  | cons r rs ih => simp [zip4, ih]

/-- **C1 (counterexample).** The claim that the cluster CSV round-trip
preserves the mapping "for all key and cluster-label values" fails: a
cluster label that is the string `"1"` is read back as the integer `1`,
because `set_clusters` passes `dtype=str` only for `sample` and `roi` and
lets pandas infer the `cluster` column. -/
theorem claim_C1_roundtrip_counterexample :
    set_clusters_read_csv (cluster_cells_to_csv
        [(.s "S1", .s "r1", .i 1, .s "1")])
      ≠ [(.s "S1", .s "r1", .i 1, .s "1")] := by decide

/-- **C1 (amended).** The cluster CSV round-trip
(`Project.cluster_cells` write, `Project.set_clusters` read) preserves
the (sample, roi, obj_id) → cluster mapping provided each sample and roi
value is a string outside pandas' NA set, each obj_id is an integer, and
each cluster label is a string that pandas' type inference leaves alone
(not an integer, float or boolean literal, nor an NA string). -/
theorem claim_C1_roundtrip_amended
    (rows : List (PdVal × PdVal × PdVal × PdVal))
    (hs : ∀ r ∈ rows, ∃ v, r.1 = PdVal.s v ∧ v ∉ pdNaStrings)
    (hr : ∀ r ∈ rows, ∃ v, r.2.1 = PdVal.s v ∧ v ∉ pdNaStrings)
    (ho : ∀ r ∈ rows, ∃ n, r.2.2.1 = PdVal.i n)
    (hc : ∀ r ∈ rows, ∃ v, r.2.2.2 = PdVal.s v ∧ pdInferLike v = false) :
    set_clusters_read_csv (cluster_cells_to_csv rows) = rows := by
  unfold set_clusters_read_csv cluster_cells_to_csv
  have hcell : ∀ (v : String), pdInferLike v = false →
      isIntLit v = false ∧ v ∉ pdNaStrings := by
    intro v hv
    unfold pdInferLike at hv
    simp only [Bool.or_eq_false_iff] at hv
    refine ⟨hv.1.1.1, ?_⟩
    have := hv.2
    simpa using this
  have col1 : readColStr ((rows.map fun r =>
        (renderVal r.1, renderVal r.2.1, renderVal r.2.2.1,
          renderVal r.2.2.2)).map fun c => c.1)
      = rows.map fun r => r.1 := by
    rw [List.map_map]
    unfold readColStr
    rw [List.map_map]
    apply List.map_congr_left
    intro r hrm
    obtain ⟨v, hv, hna⟩ := hs r hrm
    simp [Function.comp, hv, renderVal, readCellStr, hna]
  have col2 : readColStr ((rows.map fun r =>
        (renderVal r.1, renderVal r.2.1, renderVal r.2.2.1,
          renderVal r.2.2.2)).map fun c => c.2.1)
      = rows.map fun r => r.2.1 := by
    rw [List.map_map]
    unfold readColStr
    rw [List.map_map]
    apply List.map_congr_left
    intro r hrm
    obtain ⟨v, hv, hna⟩ := hr r hrm
    simp [Function.comp, hv, renderVal, readCellStr, hna]
  have col3 : readColInfer ((rows.map fun r =>
        (renderVal r.1, renderVal r.2.1, renderVal r.2.2.1,
          renderVal r.2.2.2)).map fun c => c.2.2.1)
      = rows.map fun r => r.2.2.1 := by
    rw [List.map_map]
    unfold readColInfer
    rw [if_pos (List.all_eq_true.mpr ?all)]
    case all =>
      intro t ht
      obtain ⟨r, hrm, hteq⟩ := List.mem_map.mp ht
      obtain ⟨n, hn⟩ := ho r hrm
      rw [← hteq]
      simp [Function.comp, hn, renderVal, isIntLit_intStr]
    rw [List.map_map]
    apply List.map_congr_left
    intro r hrm
    obtain ⟨n, hn⟩ := ho r hrm
    simp [Function.comp, hn, renderVal, parseIntLit_intStr]
  have col4 : readColInfer ((rows.map fun r =>
        (renderVal r.1, renderVal r.2.1, renderVal r.2.2.1,
          renderVal r.2.2.2)).map fun c => c.2.2.2)
      = rows.map fun r => r.2.2.2 := by
    rw [List.map_map]
    unfold readColInfer
    cases hrows : rows with
    | nil => rfl
    | cons r0 rs =>
      rw [hrows] at hc
      rw [if_neg ?notall]
      case notall =>
        intro hall
        obtain ⟨v, hv, hinf⟩ := hc r0 (List.mem_cons_self _ _)
        have hmem : renderVal r0.2.2.2 ∈ List.map
            ((fun c => c.2.2.2) ∘ fun r =>
              (renderVal r.1, renderVal r.2.1, renderVal r.2.2.1,
                renderVal r.2.2.2)) (r0 :: rs) :=
          List.mem_map.mpr ⟨r0, List.mem_cons_self _ _, rfl⟩
        have hint := List.all_eq_true.mp hall _ hmem
        rw [hv, show renderVal (PdVal.s v) = v from rfl,
          (hcell v hinf).1] at hint
        exact Bool.false_ne_true hint
      rw [List.map_map]
      apply List.map_congr_left
      intro r hrm
      obtain ⟨v, hv, hinf⟩ := hc r hrm
      obtain ⟨hvint, hvna⟩ := hcell v hinf
      simp [Function.comp, hv, renderVal, readCellStr, hvna]
  rw [col1, col2, col3, col4]
  exact zip4_proj rows


/-- Witness for the amended C1: a concrete row satisfying the hypotheses
round-trips unchanged. -/
theorem claim_C1_roundtrip_amended_witness :
    set_clusters_read_csv (cluster_cells_to_csv
        [(.s "S1", .s "r01", .i 3, .s "T cell")])
      = [(.s "S1", .s "r01", .i 3, .s "T cell")] :=
  claim_C1_roundtrip_amended _
    (fun r hrm => by
      rw [List.mem_singleton] at hrm
      subst hrm
      exact ⟨"S1", rfl, by decide⟩)
    (fun r hrm => by
      rw [List.mem_singleton] at hrm
      subst hrm
      exact ⟨"r01", rfl, by decide⟩)
    (fun r hrm => by
      rw [List.mem_singleton] at hrm
      subst hrm
      exact ⟨3, rfl⟩)
    (fun r hrm => by
      rw [List.mem_singleton] at hrm
      subst hrm
      exact ⟨"T cell", rfl, by decide⟩)


/- ===================================================================
   C5: `Project.set_clusters` index assertions
   C8: `Project.get_samples` / `Project.get_rois`
   C9: `mkdir` without `exist_ok`
   =================================================================== -/

/-- A pandas index as far as `set_clusters` inspects it: either an
ordinary (flat) `Index` or a `MultiIndex` with its level names. -/
inductive PdIndexK where
  | flat
  | multi (names : List (Option String))
  deriving DecidableEq, Repr

/-- `isinstance(idx, pd.MultiIndex)`. -/
def PdIndexK.isMultiIndex : PdIndexK → Bool
  | .flat => false
  | .multi _ => true

/-- `idx.names` (a flat index has the single name `None`). -/
def PdIndexK.namesOf : PdIndexK → List (Option String)
  | .flat => [none]
  | .multi ns => ns

/-- A cluster series: its index and its (index-tuple, cluster) entries. -/
structure ClustersSeries where
  idx : PdIndexK
  entries : List (List PdVal × PdVal)
  deriving DecidableEq, Repr

/-- `id_cols = ["sample", "roi", "obj_id"]`. -/
def idCols : List String := ["sample", "roi", "obj_id"]

/-- The series built by the `clusters is None` branch of `set_clusters`:
`pd.read_csv(fn, dtype={"sample": str, "roi": str}).set_index(id_cols)
["cluster"]` — `set_index` with the three columns always yields a
`MultiIndex` named exactly `id_cols`. -/
def seriesFromDisk (cells : List (String × String × String × String)) :
    ClustersSeries :=
  { idx := .multi (idCols.map some),
    entries := (set_clusters_read_csv cells).map fun r =>
      ([r.1, r.2.1, r.2.2.1], r.2.2.2) }

/-- Embedding of the index guard of `Project.set_clusters`
(`project.py` lines 731-744):

```python
id_cols = ["sample", "roi", "obj_id"]
if clusters is None:
    clusters = pd.read_csv(fn, dtype={"sample": str, "roi": str}).set_index(id_cols)["cluster"]
assert isinstance(clusters.index, pd.MultiIndex)
assert clusters.index.names == id_cols
self._clusters = clusters
```
The returned value is the new `_clusters`; an error means the assignment
(and the propagation to samples after it) never happened.  (The
`fn.parent.mkdir()` side effect is the subject of C9 and modelled
there.) -/
def effClusters (diskCells : List (String × String × String × String)) :
    Option ClustersSeries → ClustersSeries
  | some c => c
  | none => seriesFromDisk diskCells

def set_clusters_chk (cl : ClustersSeries) :
    Except PyErr (Option ClustersSeries) :=
  if cl.idx.isMultiIndex then
    if cl.idx.namesOf = idCols.map some then .ok (some cl)
    else .error .assertIndexNames
  else .error .assertMultiIndex

def set_clusters (diskCells : List (String × String × String × String))
    (clusters : Option ClustersSeries) :
    Except PyErr (Option ClustersSeries) :=
  set_clusters_chk (effClusters diskCells clusters)

/-- Whether a `set_clusters` outcome is a raised `AssertionError`. -/
def outcomeIsAssertion : Except PyErr (Option ClustersSeries) → Bool
  | .error e => e.isAssertionError
  | .ok _ => false

/-- **C5.** `set_clusters` accepts a clusters argument only when its index
is a `MultiIndex` named exactly `["sample", "roi", "obj_id"]`: every
successful call assigns `_clusters` a series with that 3-level composite
key (this also covers the read-from-disk branch), and every violating
argument raises `AssertionError` before assigning. -/
theorem claim_C5_set_clusters_index_guard
    (diskCells : List (String × String × String × String))
    (clusters : Option ClustersSeries) :
    (∀ st, set_clusters diskCells clusters = .ok st →
      ∃ c, st = some c ∧
        c.idx = .multi [some "sample", some "roi", some "obj_id"]) ∧
    (∀ c, clusters = some c →
      c.idx ≠ .multi [some "sample", some "roi", some "obj_id"] →
      outcomeIsAssertion (set_clusters diskCells clusters) = true) := by
  constructor
  · intro st hok
    unfold set_clusters set_clusters_chk at hok
    cases hcidx : (effClusters diskCells clusters).idx with
    | flat =>
      rw [hcidx] at hok
      simp [PdIndexK.isMultiIndex] at hok
    | multi ns =>
      rw [hcidx] at hok
      simp only [PdIndexK.isMultiIndex, PdIndexK.namesOf, if_true] at hok
      split at hok
      case isTrue hns =>
        refine ⟨effClusters diskCells clusters,
          (Except.ok.inj hok).symm, ?_⟩
        rw [hcidx, hns]
        rfl
      case isFalse => exact absurd hok (by simp)
  · intro c hc hne
    unfold outcomeIsAssertion set_clusters
    have hcl : effClusters diskCells clusters = c := by
      rw [hc]; rfl
    rw [hcl]
    unfold set_clusters_chk
    cases hcidx : c.idx with
    | flat =>
      simp [PdIndexK.isMultiIndex, PyErr.isAssertionError]
    | multi ns =>
      have hns : ns ≠ idCols.map some := by
        intro h
        exact hne (by rw [hcidx, h]; rfl)
      simp [PdIndexK.isMultiIndex, PdIndexK.namesOf, hns,
        PyErr.isAssertionError]

/-- Witness for C5: a flat-indexed argument is rejected with an
`AssertionError`, and a well-formed argument is assigned as given. -/
theorem claim_C5_set_clusters_index_guard_witness :
    outcomeIsAssertion (set_clusters []
        (some ⟨.flat, []⟩)) = true ∧
    (some (⟨.multi (idCols.map some), []⟩ : ClustersSeries) : Option ClustersSeries)
        = some (⟨.multi (idCols.map some), []⟩ : ClustersSeries) :=
  ⟨(claim_C5_set_clusters_index_guard [] (some ⟨.flat, []⟩)).2
      ⟨.flat, []⟩ rfl (by decide),
    rfl⟩

/-- A sample as `get_samples`/`get_rois` see it: a name and ROI names. -/
structure SampleM where
  name : String
  rois : List String
  deriving DecidableEq, Repr

/-- A project as `get_samples`/`get_rois` see it. -/
structure ProjectM where
  samples : List SampleM
  deriving DecidableEq, Repr

/-- `Project.rois`: all ROIs of all samples, in order. -/
def ProjectM.roisAll (p : ProjectM) : List String :=
  p.samples.flatMap fun s => s.rois

/-- The `sample_names`/`roi_names` argument: a single string or a list
(a single string is wrapped into a one-element list). -/
inductive NameArg where
  | one (s : String)
  | many (ss : List String)
  deriving DecidableEq, Repr

/-- The list the argument is normalized to. -/
def NameArg.toListN : NameArg → List String
  | .one s => [s]
  | .many ss => ss

/-- A Python return value that is a single object or a list of them. -/
inductive PyGet (α : Type) where
  | one (x : α)
  | many (xs : List α)
  deriving DecidableEq, Repr

/-- Embedding of `Project.get_samples` (`project.py` lines 308-315):

```python
if isinstance(sample_names, str):
    sample_names = [sample_names]
samples = [s for s in self.samples if s.name in sample_names]
if samples:
    return samples[0] if len(samples) == 1 else samples
else:
    ValueError(f"Sample ... couldn't be found.")
```
The `else` branch only CONSTRUCTS a `ValueError` — it never raises it —
so the function falls off the end and returns `None`. -/
def get_samples (p : ProjectM) (arg : NameArg) : Option (PyGet SampleM) :=
  match p.samples.filter fun s => s.name ∈ arg.toListN with
  | [] => none
  | [s] => some (.one s)
  | ss => some (.many ss)

/-- Embedding of `Project.get_rois` (`project.py` lines 317-324), same
shape as `get_samples` over `self.rois`. -/
def get_rois (p : ProjectM) (arg : NameArg) : Option (PyGet String) :=
  match p.roisAll.filter fun r => r ∈ arg.toListN with
  | [] => none
  | [r] => some (.one r)
  | rs => some (.many rs)

/-- **C8.** When no project sample (resp. ROI) matches any requested name,
`get_samples` (resp. `get_rois`) returns `None` and raises nothing: the
`ValueError` in the `else` branch is constructed but never raised. -/
theorem claim_C8_get_samples_rois_none (p : ProjectM) (arg : NameArg) :
    ((∀ n ∈ arg.toListN, n ∉ p.samples.map fun s => s.name) →
      get_samples p arg = none) ∧
    ((∀ n ∈ arg.toListN, n ∉ p.roisAll) →
      get_rois p arg = none) := by
  constructor
  · intro h
    unfold get_samples
    have hfil : (p.samples.filter fun s => s.name ∈ arg.toListN) = [] := by
      rw [List.filter_eq_nil_iff]
      intro s hs hmem
      simp only [decide_eq_true_eq] at hmem
      exact h s.name hmem (List.mem_map.mpr ⟨s, hs, rfl⟩)
    rw [hfil]
  · intro h
    unfold get_rois
    have hfil : (p.roisAll.filter fun r => r ∈ arg.toListN) = [] := by
      rw [List.filter_eq_nil_iff]
      intro r hrm hmem
      simp only [decide_eq_true_eq] at hmem
      exact h r hmem hrm
    rw [hfil]

/-- Witness for C8 at a concrete project and unmatched query. -/
theorem claim_C8_get_samples_rois_none_witness :
    get_samples ⟨[⟨"s1", ["s1-01"]⟩]⟩ (.one "zzz") = none ∧
    get_rois ⟨[⟨"s1", ["s1-01"]⟩]⟩ (.many ["zzz", "yyy"]) = none :=
  ⟨(claim_C8_get_samples_rois_none ⟨[⟨"s1", ["s1-01"]⟩]⟩ (.one "zzz")).1
      (by decide),
    (claim_C8_get_samples_rois_none ⟨[⟨"s1", ["s1-01"]⟩]⟩
      (.many ["zzz", "yyy"])).2 (by decide)⟩

/-- `pathlib.Path.mkdir()` with the default `exist_ok=False` over a set of
existing directories: raises `FileExistsError` when the path exists,
otherwise creates it.  (Parents are assumed to exist; the claims only
concern the already-exists case.) -/
def mkdirFS (fs : List String) (p : String) : Except PyErr (List String) :=
  if p ∈ fs then .error .fileExistsError else .ok (p :: fs)

/-- The only directory created by `Project.__init__`
(`self.results_dir.mkdir()`, line 127). -/
def project_init_mkdir (fs : List String) (results_dir : String) :
    Except PyErr (List String) :=
  mkdirFS fs results_dir

/-- `fn.parent` for `fn = results_dir / "single_cell" / (name + suffix)`
(`Project._get_input_filename`). -/
def clustersDirOf (results_dir : String) : String :=
  results_dir ++ "/single_cell"

/-- The directory creation performed by every `Project.set_clusters` call
(`fn.parent.mkdir()`, line 733). -/
def set_clusters_mkdir (fs : List String) (results_dir : String) :
    Except PyErr (List String) :=
  mkdirFS fs (clustersDirOf results_dir)

/-- **C9.** Directory creation never passes `exist_ok`: constructing a
`Project` raises `FileExistsError` whenever the results directory already
exists, and a second `set_clusters` call on the same project raises
`FileExistsError` because the first call created `fn.parent`. -/
theorem claim_C9_mkdir_without_exist_ok
    (fs fs' : List String) (results_dir : String) :
    (results_dir ∈ fs →
      project_init_mkdir fs results_dir = .error .fileExistsError) ∧
    (set_clusters_mkdir fs results_dir = .ok fs' →
      set_clusters_mkdir fs' results_dir = .error .fileExistsError) := by
  constructor
  · intro h
    unfold project_init_mkdir mkdirFS
    rw [if_pos h]
  · intro h
    unfold set_clusters_mkdir mkdirFS at h ⊢
    split at h
    · exact absurd h (by simp)
    · rw [if_pos]
      rw [← Except.ok.inj h]
      exact List.mem_cons_self _ _

/-- Witness for C9 at concrete states. -/
theorem claim_C9_mkdir_without_exist_ok_witness :
    project_init_mkdir ["/prj/results"] "/prj/results"
        = .error .fileExistsError ∧
    set_clusters_mkdir ["/prj/results/single_cell"] "/prj/results"
        = .error .fileExistsError :=
  ⟨(claim_C9_mkdir_without_exist_ok ["/prj/results"] [] "/prj/results").1
      (by decide),
    (claim_C9_mkdir_without_exist_ok [] ["/prj/results/single_cell"]
      "/prj/results").2 (by decide)⟩


/- ===================================================================
   C2: `Project._initialize_project_from_annotation`
   =================================================================== -/

/-- A metadata cell: the annotation CSV columns hold strings, except a
boolean `toggle` column. -/
inductive Cell where
  | s (v : String)
  | b (v : Bool)
  deriving DecidableEq, Repr

/-- A pandas DataFrame for the metadata table: column names and rows. -/
structure DFrame where
  cols : List String
  rows : List (List Cell)
  deriving DecidableEq, Repr

/-- `row[c]`: the cell of a row at a column name (first occurrence). -/
def cellAt (cols : List String) (row : List Cell) (c : String) : Cell :=
  row.getD (cols.indexOf c) (.s "")

/-- `Series.unique()` / dict-insertion order: the distinct elements of a
list in order of first occurrence (structural, with a seen-accumulator,
so the kernel can evaluate it). -/
def uniqueFirstAux {α : Type} [DecidableEq α] : List α → List α → List α
  | _, [] => []
  | seen, x :: xs =>
    if x ∈ seen then uniqueFirstAux seen xs
    else x :: uniqueFirstAux (x :: seen) xs

/-- The distinct elements of a list in order of first occurrence. -/
def uniqueFirst {α : Type} [DecidableEq α] (l : List α) : List α :=
  uniqueFirstAux [] l

/-- The group key of a metadata row: its values at the grouping
attributes (`metadata.groupby(sample_grouping_attributes, ...)`). -/
def keyOf (cols : List String) (attrs : List String) (row : List Cell) :
    List Cell :=
  attrs.map (cellAt cols row)

/-- The toggle filter:
`if (toggle or self.toggle) and ("toggle" in metadata.columns):
metadata = metadata[metadata["toggle"]]`. -/
def toggleFilter (df : DFrame) (eff : Bool) : DFrame :=
  if eff ∧ "toggle" ∈ df.cols then
    { df with rows := df.rows.filter fun r => cellAt df.cols r "toggle" = .b true }
  else df

/-- `cols_with_unique_values(dfs)`: the columns with exactly one distinct
value (the source builds a Python set; the model keeps them in column
order, which no claim depends on). -/
def constCols (cols : List String) (rows : List (List Cell)) : List String :=
  cols.filter fun c =>
    (uniqueFirst (rows.map fun r => cellAt cols r c)).length = 1

/-- `rows[const_cols].drop_duplicates().squeeze(axis=0)`: the group's rows
restricted to the constant columns collapse to a single row, read off as
a (column, value) series. -/
def squeezedRow (cols : List String) (rows : List (List Cell))
    (cc : List String) : List (String × Cell) :=
  (uniqueFirst (rows.map fun r => cc.map fun c => (c, cellAt cols r c))).headD []

/-- The arguments `IMCSample(...)` receives for one group (the claims
concern what is passed; `IMCSample` itself lives in a module outside
`src/`): `sample_name=row[self.sample_name_attribute]`,
`metadata=rows if rows.shape[0] > 1 else None`, and
`**row.drop("sample_name", errors="ignore").to_dict()`. -/
structure SampleArgs where
  sample_name : Cell
  metadata : Option (List (List Cell))
  kwargs : List (String × Cell)
  deriving DecidableEq, Repr

/-- Building one sample from a group's rows; `row[nameAttr]` raises
`KeyError` when the name attribute is not among the constant columns. -/
def buildSample (cols : List String) (nameAttr : String)
    (rows : List (List Cell)) : Except PyErr SampleArgs :=
  match (squeezedRow cols rows (constCols cols rows)).lookup nameAttr with
  | none => .error .keyError
  | some nm =>
    .ok ⟨nm, if rows.length > 1 then some rows else none,
      (squeezedRow cols rows (constCols cols rows)).filter
        fun p => p.1 ≠ "sample_name"⟩

/-- Embedding of `Project._initialize_project_from_annotation`
(`project.py` lines 191-244) after the grouping-attribute resolution
(`sample_grouping_attributes or self.sample_grouping_attributes or
metadata.columns.tolist()`, defaulting to `["sample_name"]`), with
`effToggle = (toggle or self.toggle)`:

```python
if metadata.empty:
    return
if (toggle or self.toggle) and ("toggle" in metadata.columns):
    metadata = metadata[metadata["toggle"]]
for _, idx in metadata.groupby(sample_grouping_attributes, sort=False).groups.items():
    rows = metadata.loc[idx]
    const_cols = cols_with_unique_values(rows)
    row = rows[const_cols].drop_duplicates().squeeze(axis=0)
    sample = IMCSample(sample_name=row[self.sample_name_attribute], ...,
                       metadata=rows if rows.shape[0] > 1 else None, ...,
                       **row.drop("sample_name", errors="ignore").to_dict())
    self.samples.append(sample)
```
`groupby(. , sort=False).groups.items()` iterates group keys in order of
first appearance, each group holding its rows in original order. -/
def initialize_from_annot (df : DFrame) (effToggle : Bool)
    (attrs : List String) (nameAttr : String) :
    Except PyErr (List SampleArgs) :=
  if df.rows.isEmpty then .ok []
  else
    let md := toggleFilter df effToggle
    (uniqueFirst (md.rows.map (keyOf md.cols attrs))).mapM fun k =>
      buildSample md.cols nameAttr
        (md.rows.filter fun r => keyOf md.cols attrs r = k)

theorem uniqueFirstAux_eq_nil {α : Type} [DecidableEq α]
    (seen : List α) (l : List α) :
    uniqueFirstAux seen l = [] ↔ ∀ x ∈ l, x ∈ seen := by
  induction l generalizing seen with
  | nil => simp [uniqueFirstAux]
  | cons x xs ih =>
    unfold uniqueFirstAux
    by_cases hx : x ∈ seen
    · rw [if_pos hx, ih]
      simp [hx]
    · rw [if_neg hx]
      simp only [List.mem_cons]
      constructor
      · intro h; exact absurd h (by simp)
      · intro h; exact absurd (h x (Or.inl rfl)) hx

theorem mem_of_mem_uniqueFirstAux {α : Type} [DecidableEq α]
    (seen : List α) (l : List α) :
    ∀ x ∈ uniqueFirstAux seen l, x ∈ l := by
  induction l generalizing seen with
  | nil => simp [uniqueFirstAux]
  | cons y ys ih =>
    intro x hx
    unfold uniqueFirstAux at hx
    by_cases hy : y ∈ seen
    · rw [if_pos hy] at hx
      exact List.mem_cons_of_mem _ (ih seen x hx)
    · rw [if_neg hy] at hx
      rcases List.mem_cons.mp hx with h | h
      · rw [h]; exact List.mem_cons_self _ _
      · exact List.mem_cons_of_mem _ (ih _ x h)

theorem uniqueFirst_cons_all_eq {α : Type} [DecidableEq α]
    (x : α) (xs : List α) (h : ∀ y ∈ xs, y = x) :
    uniqueFirst (x :: xs) = [x] := by
  unfold uniqueFirst uniqueFirstAux
  rw [if_neg (by simp)]
  rw [show uniqueFirstAux [x] xs = [] from
    (uniqueFirstAux_eq_nil _ _).mpr fun y hy => by rw [h y hy]; simp]

theorem uniqueFirst_length_one_iff {α : Type} [DecidableEq α]
    (x : α) (xs : List α) :
    (uniqueFirst (x :: xs)).length = 1 ↔ ∀ y ∈ xs, y = x := by
  constructor
  · intro h y hy
    unfold uniqueFirst uniqueFirstAux at h
    rw [if_neg (by simp)] at h
    have hnil : uniqueFirstAux [x] xs = [] := by
      cases hu : uniqueFirstAux [x] xs with
      | nil => rfl
      | cons a as => rw [hu] at h; simp at h
    have := (uniqueFirstAux_eq_nil [x] xs).mp hnil y hy
    simpa using this
  · intro h
    rw [uniqueFirst_cons_all_eq x xs h]
    rfl


theorem lookup_map_pair (l : List String) (f : String → Cell) (a : String)
    (ha : a ∈ l) :
    (l.map fun c => (c, f c)).lookup a = some (f a) := by
  induction l with
  | nil => cases ha
  | cons x xs ih =>
    simp only [List.map_cons, List.lookup]
    by_cases hax : a = x
    · rw [show (a == x) = true from beq_iff_eq.mpr hax, hax]
    · rw [show (a == x) = false from beq_eq_false_iff_ne.mpr hax]
      exact ih (by rcases List.mem_cons.mp ha with h | h
                   · exact absurd h hax
                   · exact h)

theorem mem_lookup_map_pair (l : List String) (f : String → Cell)
    (a : String) (v : Cell) :
    (a, v) ∈ (l.map fun c => (c, f c)) ↔ a ∈ l ∧ v = f a := by
  rw [List.mem_map]
  constructor
  · rintro ⟨c, hc, heq⟩
    obtain ⟨h1, h2⟩ := Prod.mk.inj heq
    exact ⟨h1 ▸ hc, h2.symm ▸ (by rw [h1])⟩
  · rintro ⟨ha, hv⟩
    exact ⟨a, ha, by rw [hv]⟩

theorem mapM_ok_forall2 {β : Type} {f : List Cell → Except PyErr β}
    {P : List Cell → β → Prop} :
    ∀ ks : List (List Cell), (∀ k ∈ ks, ∃ s, f k = .ok s ∧ P k s) →
      ∃ samples, ks.mapM f = .ok samples ∧ List.Forall₂ P ks samples := by
  intro ks
  induction ks with
  | nil => exact fun _ => ⟨[], rfl, .nil⟩
  | cons k ks ih =>
    intro h
    obtain ⟨s, hs, hp⟩ := h k (List.mem_cons_self _ _)
    obtain ⟨ss, hss, hf⟩ := ih fun x hx => h x (List.mem_cons_of_mem _ hx)
    refine ⟨s :: ss, ?_, .cons hp hf⟩
    rw [List.mapM_cons, hs, hss]
    rfl


/-- The rows of one group: `metadata.loc[idx]` for the group with key `k`,
in original row order. -/
def groupOf (md : DFrame) (attrs : List String) (k : List Cell) :
    List (List Cell) :=
  md.rows.filter fun r => keyOf md.cols attrs r = k

theorem mem_groupOf {md : DFrame} {attrs : List String} {k : List Cell}
    {r : List Cell} :
    r ∈ groupOf md attrs k ↔ r ∈ md.rows ∧ keyOf md.cols attrs r = k := by
  unfold groupOf
  rw [List.mem_filter]
  simp

theorem constCols_const {cols : List String} {r0 : List Cell}
    {rest : List (List Cell)} {c : String}
    (hc : c ∈ constCols cols (r0 :: rest)) :
    ∀ r ∈ r0 :: rest, cellAt cols r c = cellAt cols r0 c := by
  unfold constCols at hc
  rw [List.mem_filter] at hc
  have hlen := of_decide_eq_true hc.2
  rw [List.map_cons] at hlen
  have hall := (uniqueFirst_length_one_iff _ _).mp hlen
  intro r hr
  rcases List.mem_cons.mp hr with h | h
  · rw [h]
  · exact hall _ (List.mem_map.mpr ⟨r, h, rfl⟩)

theorem mem_constCols_of_const {cols : List String} {r0 : List Cell}
    {rest : List (List Cell)} {c : String} (hcol : c ∈ cols)
    (h : ∀ r ∈ r0 :: rest, cellAt cols r c = cellAt cols r0 c) :
    c ∈ constCols cols (r0 :: rest) := by
  unfold constCols
  rw [List.mem_filter]
  refine ⟨hcol, decide_eq_true ?_⟩
  rw [List.map_cons]
  rw [(uniqueFirst_length_one_iff _ _)]
  intro y hy
  obtain ⟨r, hr, rfl⟩ := List.mem_map.mp hy
  exact h r (List.mem_cons_of_mem _ hr)

theorem squeezedRow_eq {cols : List String} {r0 : List Cell}
    {rest : List (List Cell)} :
    squeezedRow cols (r0 :: rest) (constCols cols (r0 :: rest))
      = (constCols cols (r0 :: rest)).map fun c => (c, cellAt cols r0 c) := by
  unfold squeezedRow
  rw [List.map_cons]
  rw [uniqueFirst_cons_all_eq]
  · rfl
  · intro y hy
    obtain ⟨r, hr, rfl⟩ := List.mem_map.mp hy
    apply List.map_congr_left
    intro c hc
    rw [constCols_const hc r (List.mem_cons_of_mem _ hr)]

/-- The claim-side description of one constructed sample: its name is the
group's (constant) value of the name attribute, its attached metadata is
the group's rows when there are several, and its keyword arguments are
exactly the columns whose value is constant within the group (minus the
literal `sample_name` key), with their common value. -/
def sampleSpec (md : DFrame) (attrs : List String) (nameAttr : String)
    (k : List Cell) (s : SampleArgs) : Prop :=
  groupOf md attrs k ≠ [] ∧
  (∀ r ∈ groupOf md attrs k, cellAt md.cols r nameAttr = s.sample_name) ∧
  s.metadata = (if (groupOf md attrs k).length > 1
    then some (groupOf md attrs k) else none) ∧
  (∀ c v, (c, v) ∈ s.kwargs ↔
    (c ∈ md.cols ∧ c ≠ "sample_name" ∧
      ∀ r ∈ groupOf md attrs k, cellAt md.cols r c = v))

theorem buildSample_spec (md : DFrame) (attrs : List String)
    (nameAttr : String) (k : List Cell) (hname : nameAttr ∈ attrs)
    (hattr : nameAttr ∈ md.cols) (hne : groupOf md attrs k ≠ []) :
    ∃ s, buildSample md.cols nameAttr (groupOf md attrs k) = .ok s ∧
      sampleSpec md attrs nameAttr k s := by
  obtain ⟨r0, rest, hg⟩ := List.exists_cons_of_ne_nil hne
  have hr0 : r0 ∈ groupOf md attrs k := by rw [hg]; exact List.mem_cons_self _ _
  have hkey : ∀ r ∈ groupOf md attrs k,
      cellAt md.cols r nameAttr = cellAt md.cols r0 nameAttr := by
    intro r hr
    have h1 := (mem_groupOf.mp hr).2
    have h2 := (mem_groupOf.mp hr0).2
    unfold keyOf at h1 h2
    exact List.map_inj_left.mp (h1.trans h2.symm) nameAttr hname
  have hnameCC : nameAttr ∈ constCols md.cols (r0 :: rest) := by
    apply mem_constCols_of_const hattr
    intro r hr
    rw [← hg] at hr
    rw [hkey r hr, hkey r0 hr0]
  refine ⟨⟨cellAt md.cols r0 nameAttr,
    if (groupOf md attrs k).length > 1 then some (groupOf md attrs k) else none,
    ((constCols md.cols (r0 :: rest)).map fun c =>
      (c, cellAt md.cols r0 c)).filter fun p => p.1 ≠ "sample_name"⟩, ?_, ?_⟩
  · unfold buildSample
    rw [hg, squeezedRow_eq, lookup_map_pair _ _ _ hnameCC]
  · refine ⟨hne, ?_, rfl, ?_⟩
    · intro r hr
      exact hkey r hr
    · intro c v
      rw [List.mem_filter]
      rw [mem_lookup_map_pair]
      constructor
      · rintro ⟨⟨hcc, hv⟩, hns⟩
        simp only [decide_eq_true_eq] at hns
        refine ⟨?_, hns, ?_⟩
        · unfold constCols at hcc
          exact (List.mem_filter.mp hcc).1
        · intro r hr
          rw [hg] at hr
          rw [hv]
          exact constCols_const hcc r hr
      · rintro ⟨hcol, hns, hconst⟩
        have hcc : c ∈ constCols md.cols (r0 :: rest) := by
          apply mem_constCols_of_const hcol
          intro r hr
          rw [← hg] at hr
          rw [hconst r hr, hconst r0 hr0]
        refine ⟨⟨hcc, ?_⟩, by simp [hns]⟩
        rw [hconst r0 hr0]

/-- **C2 (counterexample).** Claimed for EVERY non-empty metadata table;
but with a `toggle` column and toggling enabled (the default), rows with
a false toggle are dropped before grouping: a non-empty table with one
unique `sample_name` value produces zero samples. -/
theorem claim_C2_toggle_counterexample :
    initialize_from_annot ⟨["sample_name", "toggle"],
        [[.s "s1", .b false]]⟩ true ["sample_name"] "sample_name"
      = .ok [] ∧
    ([[Cell.s "s1", Cell.b false]] : List (List Cell)) ≠ [] ∧
    (uniqueFirst ([[Cell.s "s1", Cell.b false]].map
      (keyOf ["sample_name", "toggle"] ["sample_name"]))).length = 1 := by
  refine ⟨?_, by simp, by decide⟩
  rfl

/-- **C2 (amended).** For every non-empty metadata table, after the
toggle filter (a no-op when toggling is off or there is no `toggle`
column), initialization produces exactly one sample per unique
combination of the grouping-attribute values among the remaining rows, in
order of first appearance (`groupby` with `sort=False`), each sample
carrying the group's constant value of the (grouped-on) name attribute
and exactly the columns constant within its group as keyword
arguments. -/
theorem claim_C2_initialize_grouping (df : DFrame) (effToggle : Bool)
    (attrs : List String) (nameAttr : String)
    (hrows : df.rows ≠ []) (hname : nameAttr ∈ attrs)
    (hattr : nameAttr ∈ df.cols) :
    ∃ samples,
      initialize_from_annot df effToggle attrs nameAttr = .ok samples ∧
      List.Forall₂ (sampleSpec (toggleFilter df effToggle) attrs nameAttr)
        (uniqueFirst ((toggleFilter df effToggle).rows.map
          (keyOf (toggleFilter df effToggle).cols attrs)))
        samples := by
  unfold initialize_from_annot
  rw [if_neg (by simp [hrows])]
  have hcols : (toggleFilter df effToggle).cols = df.cols := by
    unfold toggleFilter
    split <;> rfl
  apply mapM_ok_forall2
  intro k hk
  have hgne : groupOf (toggleFilter df effToggle) attrs k ≠ [] := by
    have hkmem := mem_of_mem_uniqueFirstAux _ _ k hk
    obtain ⟨r, hr, hrk⟩ := List.mem_map.mp hkmem
    intro hnil
    have : r ∈ groupOf (toggleFilter df effToggle) attrs k :=
      mem_groupOf.mpr ⟨hr, hrk⟩
    rw [hnil] at this
    cases this
  exact buildSample_spec _ attrs nameAttr k hname (hcols ▸ hattr) hgne

/-- Witness for the amended C2 at a concrete two-row table: one sample
per unique `sample_name`, in first-appearance order. -/
theorem claim_C2_initialize_grouping_witness :
    ∃ samples,
      initialize_from_annot ⟨["sample_name", "grade"],
          [[.s "s1", .s "hi"], [.s "s2", .s "lo"], [.s "s1", .s "hi"]]⟩
        false ["sample_name"] "sample_name" = .ok samples ∧
      List.Forall₂ (sampleSpec (toggleFilter ⟨["sample_name", "grade"],
          [[.s "s1", .s "hi"], [.s "s2", .s "lo"], [.s "s1", .s "hi"]]⟩
          false) ["sample_name"] "sample_name")
        (uniqueFirst ((toggleFilter ⟨["sample_name", "grade"],
          [[.s "s1", .s "hi"], [.s "s2", .s "lo"], [.s "s1", .s "hi"]]⟩
          false).rows.map
            (keyOf (toggleFilter ⟨["sample_name", "grade"],
              [[.s "s1", .s "hi"], [.s "s2", .s "lo"], [.s "s1", .s "hi"]]⟩
              false).cols ["sample_name"])))
        samples :=
  claim_C2_initialize_grouping
    ⟨["sample_name", "grade"],
      [[.s "s1", .s "hi"], [.s "s2", .s "lo"], [.s "s1", .s "hi"]]⟩
    false ["sample_name"] "sample_name" (by decide) (by decide) (by decide)


/- ===================================================================
   C7: the `segment` CLI skips stacks without channel-label CSVs
   C6: `Project.sample_comparisons` statistical-test loops
   =================================================================== -/

/-- Python `str.replace(patt, repl)` on char lists: replace every
non-overlapping occurrence left to right (structural, with fuel equal to
the list length, so the kernel can evaluate it). -/
def replaceAllAux (p r : List Char) : Nat → List Char → List Char
  | 0, l => l
  | fuel + 1, l =>
    match l with
    | [] => []
    | c :: rest =>
      if !p.isEmpty && startsWithL p l then
        r ++ replaceAllAux p r fuel (l.drop p.length)
      else c :: replaceAllAux p r fuel rest

/-- Python `str.replace` / `imc.types.Path.replace_`. -/
def pyReplace (s patt repl : String) : String :=
  String.mk (replaceAllAux patt.toList repl.toList s.toList.length s.toList)

/-- The mock ROI the CLI builds for one TIFF path (the channel-exclude
series it also carries is irrelevant to the claim). -/
structure ROIMock where
  stack_file : String
  channel_labels_file : String
  deriving DecidableEq, Repr

/-- Embedding of the first loop of `segment_stacks.main`
(`segment_stacks.py` lines 52-72): for each TIFF, derive the companion
CSV path with `tiff.replace_(".tiff", ".csv")`; when it does not exist,
print a warning (collected in the first component) and `continue`;
otherwise build the mock ROI.  `exists?` is the file-system oracle. -/
def collect_rois (exists? : String → Bool) :
    List String → List String × List ROIMock
  | [] => ([], [])
  | t :: ts =>
    let csv := pyReplace t ".tiff" ".csv"
    let rec0 := collect_rois exists? ts
    if !exists? csv then (t :: rec0.1, rec0.2)
    else (rec0.1, ⟨t, csv⟩ :: rec0.2)

/-- Embedding of `segment_stacks.main`: collect the ROIs (warning and
skipping on missing channel-label CSVs), run segmentation over the
remaining ones (`segf` stands for the `segment_roi` call, whose
model/compartment arguments are argparse-validated `choices`), and
return exit code 0. -/
def segment_cli_main (exists? : String → Bool) (segf : ROIMock → NDArr)
    (tiffs : List String) :
    Except PyErr (Nat × List String × List NDArr) :=
  .ok (0, (collect_rois exists? tiffs).1,
    (collect_rois exists? tiffs).2.map segf)

/-- **C7.** Every input TIFF without a companion channel-labels CSV
(path with `.tiff` replaced by `.csv`) is warned about and skipped,
segmentation runs for exactly the remaining paths in order, and the CLI
returns exit code 0 — a missing file never aborts the run. -/
theorem claim_C7_missing_csv_skipped (exists? : String → Bool)
    (segf : ROIMock → NDArr) (tiffs : List String) :
    (collect_rois exists? tiffs).1
      = tiffs.filter (fun t => !exists? (pyReplace t ".tiff" ".csv")) ∧
    ((collect_rois exists? tiffs).2.map fun r => r.stack_file)
      = tiffs.filter (fun t => exists? (pyReplace t ".tiff" ".csv")) ∧
    segment_cli_main exists? segf tiffs
      = .ok (0, tiffs.filter (fun t => !exists? (pyReplace t ".tiff" ".csv")),
          ((tiffs.filter fun t => exists? (pyReplace t ".tiff" ".csv")).map
            fun t => segf ⟨t, pyReplace t ".tiff" ".csv"⟩)) := by
  have h12 : ∀ ts : List String,
      (collect_rois exists? ts).1
        = ts.filter (fun t => !exists? (pyReplace t ".tiff" ".csv")) ∧
      (collect_rois exists? ts).2
        = (ts.filter fun t => exists? (pyReplace t ".tiff" ".csv")).map
            fun t => (⟨t, pyReplace t ".tiff" ".csv"⟩ : ROIMock) := by
    intro ts
    induction ts with
    | nil => exact ⟨rfl, rfl⟩
    | cons t ts ih =>
      unfold collect_rois
      by_cases hex : exists? (pyReplace t ".tiff" ".csv")
      · rw [if_neg (by simp [hex])]
        simp only [List.filter_cons]
        simp [hex, ih.1, ih.2]
      · rw [if_pos (by simp [hex])]
        simp only [List.filter_cons]
        simp [hex, ih.1, ih.2]
  refine ⟨(h12 tiffs).1, ?_, ?_⟩
  · rw [(h12 tiffs).2, List.map_map]
    have hid : ((fun (r : ROIMock) => r.stack_file) ∘ fun t =>
        (⟨t, pyReplace t ".tiff" ".csv"⟩ : ROIMock)) = id := rfl
    rw [hid, List.map_id]
  · unfold segment_cli_main
    rw [(h12 tiffs).1, (h12 tiffs).2, List.map_map]
    rfl


/-- One record appended to `_res` in the testing loops of
`Project.sample_comparisons`:
`[attribute, channel, group1, group2, *means, *mu]`. -/
structure TestRow where
  attr : String
  item : String
  group1 : String
  group2 : String
  mean1 : PyF
  mean2 : PyF
  log2_fold : PyF
  stat : PyF
  p_value : PyF
  deriving DecidableEq, Repr

/-- `pandas.Series.mean()` (NaN-skipping; NaN for an empty or all-NaN
series). -/
def pdMean (l : List PyF) : PyF :=
  let nums := l.filterMap fun v => match v with
    | .num q => some q
    | .nan => none
  if nums.isEmpty then .nan else .num (nums.foldr (· + ·) 0 / nums.length)

/-- `itertools.permutations(xs, 2)` for a duplicate-free `xs` (the loops
apply it to `.unique()` outputs): all ordered pairs of distinct
elements, in iteration order. -/
def perms2 {α : Type} [DecidableEq α] (xs : List α) : List (α × α) :=
  xs.flatMap fun x => (xs.filter fun y => y ≠ x).map fun y => (x, y)

/-- The `try: mu = mannwhitneyu(a, b) except ValueError: mu = (np.nan,
np.nan)` block: a `ValueError` is swallowed into a NaN pair; any other
exception would propagate (scipy's `mannwhitneyu` raises only
`ValueError`). -/
def tryMWU (mwu : List PyF → List PyF → Except PyErr (PyF × PyF))
    (a b : List PyF) : Except PyErr (PyF × PyF) :=
  match mwu a b with
  | .error .valueError => .ok (.nan, .nan)
  | r => r

/-- The recorded (statistic, p-value) pair for a comparison: the test's
result, or (NaN, NaN) when it raised. -/
def mwuOutcome (mwu : List PyF → List PyF → Except PyErr (PyF × PyF))
    (a b : List PyF) : PyF × PyF :=
  match mwu a b with
  | .ok r => r
  | .error _ => (.nan, .nan)

/-- The iteration space of one testing loop: every (attribute, item,
(group1, group2)) combination, in loop order. -/
def testCombos (attributes items : List String)
    (groupsOf : String → List String) :
    List (String × String × String × String) :=
  attributes.flatMap fun attrName =>
    items.flatMap fun item =>
      (perms2 (groupsOf attrName)).map fun g => (attrName, item, g.1, g.2)

/-- Embedding of the two statistical-testing loops of
`Project.sample_comparisons` (`project.py` lines 859-880 for channels
and 920-941 for clusters; they are structurally identical, differing
only in which dataframe and column feed `items` and `valuesOf`):

```python
for attribute in sample_attributes:
    for channel in channel_df["channel"].unique():
        for group1, group2 in itertools.permutations(channel_df[attribute].unique(), 2):
            a = channel_df.query(...)["value"]; b = channel_df.query(...)["value"]
            am = a.mean(); bm = b.mean()
            means = [am, bm, np.log2(a.mean() / b.mean())]
            try:
                mu = mannwhitneyu(a, b)
            except ValueError:
                mu = (np.nan, np.nan)
            _res.append([attribute, channel, group1, group2, *means, *mu])
```
`mwu` stands for `scipy.stats.mannwhitneyu` and `log2Div` for
`np.log2(am / bm)`; `valuesOf item attribute group` is the queried value
series.  Exceptions propagate through the iteration (Except-threading),
which is exactly what the `try` block prevents for `ValueError`. -/
def comparison_tests (mwu : List PyF → List PyF → Except PyErr (PyF × PyF))
    (log2Div : PyF → PyF → PyF) (attributes items : List String)
    (groupsOf : String → List String)
    (valuesOf : String → String → String → List PyF) :
    Except PyErr (List TestRow) :=
  (testCombos attributes items groupsOf).mapM
    fun (c : String × String × String × String) =>
      (tryMWU mwu (valuesOf c.2.1 c.1 c.2.2.1) (valuesOf c.2.1 c.1 c.2.2.2)).map
        fun mu =>
          ⟨c.1, c.2.1, c.2.2.1, c.2.2.2,
            pdMean (valuesOf c.2.1 c.1 c.2.2.1),
            pdMean (valuesOf c.2.1 c.1 c.2.2.2),
            log2Div (pdMean (valuesOf c.2.1 c.1 c.2.2.1))
              (pdMean (valuesOf c.2.1 c.1 c.2.2.2)),
            mu.1, mu.2⟩

theorem mapM_eq_map {α β : Type} (f : α → Except PyErr β) (g : α → β)
    (l : List α) (h : ∀ x ∈ l, f x = .ok (g x)) :
    l.mapM f = .ok (l.map g) := by
  induction l with
  | nil => rfl
  | cons x xs ih =>
    rw [List.mapM_cons, h x (List.mem_cons_self _ _),
      ih fun y hy => h y (List.mem_cons_of_mem _ hy)]
    rfl

/-- **C6.** Provided `mannwhitneyu` raises only `ValueError` (its scipy
contract on degenerate input), the testing loop completes without any
exception escaping, producing exactly one record per (attribute,
item, ordered group pair) in loop order; a pair on which the test raised
`ValueError` is recorded with NaN statistic and NaN p-value. -/
theorem claim_C6_mwu_valueerror_nan
    (mwu : List PyF → List PyF → Except PyErr (PyF × PyF))
    (log2Div : PyF → PyF → PyF) (attributes items : List String)
    (groupsOf : String → List String)
    (valuesOf : String → String → String → List PyF)
    (hV : ∀ a b e, mwu a b = .error e → e = .valueError) :
    comparison_tests mwu log2Div attributes items groupsOf valuesOf
      = .ok ((testCombos attributes items groupsOf).map fun c =>
          ⟨c.1, c.2.1, c.2.2.1, c.2.2.2,
            pdMean (valuesOf c.2.1 c.1 c.2.2.1),
            pdMean (valuesOf c.2.1 c.1 c.2.2.2),
            log2Div (pdMean (valuesOf c.2.1 c.1 c.2.2.1))
              (pdMean (valuesOf c.2.1 c.1 c.2.2.2)),
            (mwuOutcome mwu (valuesOf c.2.1 c.1 c.2.2.1)
              (valuesOf c.2.1 c.1 c.2.2.2)).1,
            (mwuOutcome mwu (valuesOf c.2.1 c.1 c.2.2.1)
              (valuesOf c.2.1 c.1 c.2.2.2)).2⟩) ∧
    (∀ a b, mwu a b = .error .valueError →
      mwuOutcome mwu a b = (.nan, .nan)) := by
  constructor
  · unfold comparison_tests
    apply mapM_eq_map
    intro c _
    have htry : tryMWU mwu (valuesOf c.2.1 c.1 c.2.2.1)
        (valuesOf c.2.1 c.1 c.2.2.2)
        = .ok (mwuOutcome mwu (valuesOf c.2.1 c.1 c.2.2.1)
            (valuesOf c.2.1 c.1 c.2.2.2)) := by
      unfold tryMWU mwuOutcome
      cases hm : mwu (valuesOf c.2.1 c.1 c.2.2.1)
          (valuesOf c.2.1 c.1 c.2.2.2) with
      | ok r => rfl
      | error e =>
        rw [hV _ _ _ hm]
    rw [htry]
    rfl
  · intro a b hab
    unfold mwuOutcome
    rw [hab]

/-- Concrete Mann-Whitney oracle for the witness: raises `ValueError`
on an empty first sample (degenerate input), otherwise succeeds. -/
def mwuW : List PyF → List PyF → Except PyErr (PyF × PyF) :=
  fun a _ => if a.isEmpty then .error .valueError else .ok (.num 1, .num 1)

/-- Concrete `np.log2(am/bm)` oracle for the witness. -/
def log2W : PyF → PyF → PyF := fun _ _ => .nan

/-- Concrete group values for the witness. -/
def groupsW : String → List String := fun _ => ["covid", "healthy"]

/-- Concrete queried value series for the witness: the `healthy` group is
empty, so the `(healthy, covid)` comparison raises `ValueError`. -/
def valuesW : String → String → String → List PyF :=
  fun _ _ g => if g = "covid" then [.num 1] else []

/-- Witness for C6: at the concrete oracles the loop completes and the
pair whose test raised records NaNs. -/
theorem claim_C6_mwu_valueerror_nan_witness :
    comparison_tests mwuW log2W ["disease"] ["CD3"] groupsW valuesW
      = .ok ((testCombos ["disease"] ["CD3"] groupsW).map fun c =>
          ⟨c.1, c.2.1, c.2.2.1, c.2.2.2,
            pdMean (valuesW c.2.1 c.1 c.2.2.1),
            pdMean (valuesW c.2.1 c.1 c.2.2.2),
            log2W (pdMean (valuesW c.2.1 c.1 c.2.2.1))
              (pdMean (valuesW c.2.1 c.1 c.2.2.2)),
            (mwuOutcome mwuW (valuesW c.2.1 c.1 c.2.2.1)
              (valuesW c.2.1 c.1 c.2.2.2)).1,
            (mwuOutcome mwuW (valuesW c.2.1 c.1 c.2.2.1)
              (valuesW c.2.1 c.1 c.2.2.2)).2⟩) ∧
    mwuOutcome mwuW (valuesW "CD3" "disease" "healthy")
        (valuesW "CD3" "disease" "covid") = (.nan, .nan) :=
  ⟨(claim_C6_mwu_valueerror_nan mwuW log2W ["disease"] ["CD3"] groupsW
      valuesW (fun a b e h => by
        unfold mwuW at h
        split at h
        · exact (Except.error.inj h).symm
        · exact absurd h (by simp))).1,
    (claim_C6_mwu_valueerror_nan mwuW log2W ["disease"] ["CD3"] groupsW
      valuesW (fun a b e h => by
        unfold mwuW at h
        split at h
        · exact (Except.error.inj h).symm
        · exact absurd h (by simp))).2
      (valuesW "CD3" "disease" "healthy") (valuesW "CD3" "disease" "covid")
      (by decide)⟩

end IMC
